import Mathlib

/-!
Verification development for the clawdbar credential and deposit-crediting
core.  The TypeScript sources (`src/lib/auth.ts`, `src/lib/blockchain.ts`,
the registration routes and the wallet deposit route) are shallowly embedded
as executable Lean definitions; external collaborators (the Supabase record
store, the chain RPC endpoint, environment variables, bcrypt) are passed in
explicitly as parameters so that each HTTP handler becomes a pure function
from its inputs and the store state to an outcome and a new store state.
-/

namespace ClawdBar

/-- ASCII lowercasing, modelling JavaScript `String.prototype.toLowerCase`
on the ASCII strings (hex hashes and addresses) this code applies it to. -/
def toLowerStr (s : String) : String := ⟨s.data.map Char.toLower⟩

/-- Character-level `s.slice(n)` / `substring(n)`. -/
def dropStr (s : String) (n : Nat) : String := ⟨s.data.drop n⟩

/-- Character-level `s.substring(0, n)`. -/
def takeStr (s : String) (n : Nat) : String := ⟨s.data.take n⟩

/-- Numeric value of one hexadecimal digit, `none` for a non-hex character. -/
def hexDigitVal (c : Char) : Option Nat :=
  if '0' ≤ c ∧ c ≤ '9' then some (c.toNat - '0'.toNat)
  else if 'a' ≤ c ∧ c ≤ 'f' then some (c.toNat - 'a'.toNat + 10)
  else if 'A' ≤ c ∧ c ≤ 'F' then some (c.toNat - 'A'.toNat + 10)
  else none

/-- Whether a character is a hexadecimal digit (`[a-fA-F0-9]`). -/
def isHexDigit (c : Char) : Bool := (hexDigitVal c).isSome

/-- Fold a list of hex digits into a number (most significant first). -/
def hexFold (cs : List Char) : Nat :=
  cs.foldl (fun n c => n * 16 + ((hexDigitVal c).getD 0)) 0

/-- JavaScript `BigInt(hexData)` applied to a `0x`-prefixed hex string, as
the chain RPC delivers log data.  `none` models the thrown `SyntaxError`
when the string is not well-formed hex. -/
def parseBigIntHex (s : String) : Option Nat :=
  match s.data with
  | '0' :: 'x' :: rest =>
      if rest ≠ [] ∧ rest.all isHexDigit then some (hexFold rest) else none
  | _ => none

/-- JavaScript `parseInt(s, 16)`: skip an optional `0x`, read the maximal
hex-digit prefix, `none` for `NaN`. -/
def parseIntHex (s : String) : Option Nat :=
  let cs :=
    match s.data with
    | '0' :: 'x' :: rest => rest
    | '0' :: 'X' :: rest => rest
    | cs => cs
  let digits := cs.takeWhile isHexDigit
  if digits = [] then none else some (hexFold digits)

/-! ### `src/lib/blockchain.ts` -/

/-- Native USDC contract address on Polygon (`USDC_CONTRACT`). -/
def USDC_CONTRACT : String := "0x3c499c542cEF5E3811e1192ce70d8cC03d5c3359"

/-- The constant `MIN_DEPOSIT_USDC`. -/
def MIN_DEPOSIT_USDC : ℚ := 1

/-- The constant `MAX_DEPOSIT_USDC`. -/
def MAX_DEPOSIT_USDC : ℚ := 1000

/-- The constant `USDC_DECIMALS`. -/
def USDC_DECIMALS : Nat := 6

/-- ERC20 Transfer event signature constant (`TRANSFER_EVENT_SIGNATURE`). -/
def TRANSFER_EVENT_SIGNATURE : String :=
  "0xddf252ad1be2c89b69c2b068fc378daa952ba7f163c4a11628f55a4df523b3ef"

/-- One entry of `TransactionReceipt.logs`. -/
structure LogEntry where
  address : String
  topics : List String
  data : String
deriving DecidableEq

/-- The `TransactionReceipt` interface. -/
structure TransactionReceipt where
  status : String
  blockNumber : String
  logs : List LogEntry
deriving DecidableEq

/-- The `VerificationResult` interface.  The TypeScript field `from` is a
Lean keyword and is embedded as `fromAddr`. -/
structure VerificationResult where
  valid : Bool
  amount : Option ℚ
  fromAddr : Option String
  toAddr : Option String
  blockNumber : Option Nat
  error : Option String
deriving DecidableEq

/-- Shorthand for the error results of `verifyUSDCTransfer`. -/
def vErr (msg : String) : VerificationResult :=
  ⟨false, none, none, none, none, some msg⟩

/-- The regular expression test `/^0x[a-fA-F0-9]{64}$/.test(txHash)`. -/
def txHashFormatValid (s : String) : Bool :=
  match s.data with
  | '0' :: 'x' :: rest => rest.length = 64 && rest.all isHexDigit
  | _ => false

/-- The function `parseAddress`: strip the 24-byte padding of a 32-byte topic and
lowercase (`'0x' + topic.slice(26).toLowerCase()`). -/
def parseAddress (topic : String) : String :=
  "0x" ++ toLowerStr (dropStr topic 26)

/-- The function `parseUSDCAmount`: big-endian integer of the data payload scaled by
10^6.  `none` models the exception thrown by `BigInt` on malformed data. -/
def parseUSDCAmount (hexData : String) : Option ℚ :=
  (parseBigIntHex hexData).map (fun n => (n : ℚ) / (10 : ℚ) ^ USDC_DECIMALS)

/-- Outcome of the receipt-log scan in `verifyUSDCTransfer`: the first
matching transfer log, no match, or a thrown runtime error (accessing
`log.topics[2]` when it is absent makes `parseAddress` throw). -/
inductive ScanOutcome where
  | found (l : LogEntry)
  | notFound
  | thrown
deriving DecidableEq

/-- The `for (const log of receipt.logs)` loop of `verifyUSDCTransfer`:
skip logs not from the USDC contract, skip logs whose `topics[0]` is not
the Transfer signature, and stop at the first log whose parsed `topics[2]`
equals the treasury address. -/
def findTransferLog (treasuryAddress : String) : List LogEntry → ScanOutcome
  | [] => .notFound
  | log :: rest =>
    if toLowerStr log.address ≠ toLowerStr USDC_CONTRACT then
      findTransferLog treasuryAddress rest
    else if log.topics.get? 0 ≠ some TRANSFER_EVENT_SIGNATURE then
      findTransferLog treasuryAddress rest
    else
      match log.topics.get? 2 with
      | none => .thrown
      | some t2 =>
        if parseAddress t2 = treasuryAddress then .found log
        else findTransferLog treasuryAddress rest

/-- The function `verifyUSDCTransfer` from `src/lib/blockchain.ts`.  The
`CLAWDBAR_TREASURY_ADDRESS` environment variable and the chain RPC are
passed explicitly (`getTreasuryAddress` throws when the variable is unset,
caught and turned into the configuration error).  The second component of
the result records whether the `eth_getTransactionReceipt` network call was
made. -/
def verifyUSDCTransfer (txHash : String) (treasuryEnv : Option String)
    (chain : String → Option TransactionReceipt) :
    VerificationResult × Bool :=
  if ¬ txHashFormatValid txHash then
    (vErr "Invalid transaction hash format", false)
  else
    match treasuryEnv with
    | none => (vErr "Treasury wallet not configured", false)
    | some addr =>
      -- the source binds `treasuryAddress = addr.toLowerCase()` once;
      -- it is inlined as `toLowerStr addr` below
      match chain txHash with
      | none => (vErr "Transaction not found or not yet confirmed", true)
      | some receipt =>
        if receipt.status ≠ "0x1" then (vErr "Transaction failed", true)
        else
          match findTransferLog (toLowerStr addr) receipt.logs with
          | .thrown =>
              (vErr "Cannot read properties of undefined reading slice", true)
          | .notFound =>
              (vErr "No USDC transfer to treasury address found in transaction", true)
          | .found log =>
            match parseUSDCAmount log.data with
            | none => (vErr "Cannot convert data to a BigInt", true)
            | some amount =>
              if amount < MIN_DEPOSIT_USDC then
                (vErr "Minimum deposit is $1 USDC", true)
              else if amount > MAX_DEPOSIT_USDC then
                (vErr "Maximum deposit is $1000 USDC", true)
              else
                (⟨true, some amount,
                  some (parseAddress ((log.topics.get? 1).getD "")),
                  some (toLowerStr addr),
                  parseIntHex receipt.blockNumber, none⟩, true)

/-! ### `src/lib/auth.ts` and the registration routes

bcrypt is modelled as an idealized salted one-way function: a hash is the
pair of its salt and the hashed key, and `bcrypt.compare(key, h)` holds
exactly when `h` was produced from `key`.  One-wayness itself is not a
statement of the embedding; what the theorems state is which fields reach
the record store. -/

/-- Idealized bcrypt digest: salt paired with the hashed key. -/
structure BcryptHash where
  salt : Nat
  key : String
deriving DecidableEq

/-- The function `hashApiKey` (`bcrypt.hash(apiKey, BCRYPT_ROUNDS)`); the salt drawn by
bcrypt is passed explicitly. -/
def hashApiKey (salt : Nat) (apiKey : String) : BcryptHash := ⟨salt, apiKey⟩

/-- The comparison `bcrypt.compare(apiKey, hash)`. -/
def bcryptCompare (apiKey : String) (h : BcryptHash) : Bool := h.key == apiKey

/-- The function `generateApiKey`: fixed prefix plus the base64url encoding of 21 random
bytes; the random payload is passed explicitly. -/
def generateApiKey (payload : String) : String := "clwdbar_" ++ payload

/-- The function `getKeyPrefix`: `apiKey.substring(0, 16)`. -/
def getKeyPrefix (apiKey : String) : String := takeStr apiKey 16

/-- The row of the `agents` table as written by a registration handler.
`api_key` is the legacy cleartext column; the hash-based route leaves it
unset and the legacy route leaves `api_key_hash`/`api_key_prefix` unset. -/
structure AgentsInsertRecord where
  name : String
  api_key : Option String
  api_key_hash : Option BcryptHash
  api_key_prefix : Option String
  status : String
  balance_usdc : ℚ
deriving DecidableEq

/-- The insert + response core of the hash-based registration route
(`POST /api/agents/register`, post-migration): store the bcrypt hash and
the 16-character lookup prefix, never the cleartext column, and hand the
plaintext key back in the response body (`api_key: apiKey`). -/
def registerPOST (salt : Nat) (apiKey : String) (name : String) :
    AgentsInsertRecord × String :=
  (⟨name, none, some (hashApiKey salt apiKey), some (getKeyPrefix apiKey),
    "offline", 0⟩, apiKey)

/-- The insert + response core of the legacy registration route found in
the repository (pre-migration): the cleartext key is written to the
`api_key` column and also returned in the response. -/
def registerPOSTLegacy (apiKey : String) (name : String) :
    AgentsInsertRecord × String :=
  (⟨name, some apiKey, none, none, "offline", 0⟩, apiKey)

/-- A row of the `agents` table as read by `validateApiKey`. -/
structure StoredAgent where
  id : String
  api_key_hash : BcryptHash
  api_key_prefix : String
deriving DecidableEq

/-- SQL `LIKE` pattern matching (PostgREST `.like`), on lists of
characters: `%` matches any sequence, `_` matches any single character.
Structural recursion on an explicit fuel (every step shortens the pattern
or the string, so `p.length + s.length + 1` steps always suffice); the
fuel keeps the function kernel-computable. -/
def likeMatchAux : Nat → List Char → List Char → Bool
  | 0, _, _ => false
  | _ + 1, [], s => s.isEmpty
  | fuel + 1, p :: ps, s =>
    if p = '%' then
      likeMatchAux fuel ps s ||
        (match s with
         | [] => false
         | _ :: s2 => likeMatchAux fuel (p :: ps) s2)
    else
      match s with
      | [] => false
      | c :: ss => (p == '_' || p == c) && likeMatchAux fuel ps ss

/-- SQL `LIKE` pattern matching with sufficient fuel. -/
def likeMatch (p s : List Char) : Bool :=
  likeMatchAux (p.length + s.length + 1) p s

/-- The function `validateApiKey` from `src/lib/auth.ts`.  The `X-Agent-Key` header is
`none` when absent; the record store is an `Except`: `.error` models a
Supabase query error, `.ok table` the `agents` table, on which the
`.like('api_key_prefix', keyPrefix)` query is a `likeMatch` filter.  A
query error, an empty candidate set and a failed hash comparison all
return `none` (the code maps each to `null`). -/
def validateApiKey : Option String → Except Unit (List StoredAgent) →
    Option StoredAgent
  | none, _ => none
  | some apiKey, db =>
    if apiKey = "" then none
    else
      -- the source binds `keyPrefix` and the candidate list `agents` once;
      -- both are inlined below
      match db with
      | .error _ => none
      | .ok table =>
        if (table.filter (fun a =>
              likeMatch (getKeyPrefix apiKey).data
                a.api_key_prefix.data)).isEmpty then none
        else
          (table.filter (fun a =>
              likeMatch (getKeyPrefix apiKey).data
                a.api_key_prefix.data)).find?
            (fun a => bcryptCompare apiKey a.api_key_hash)

/-! ### The wallet deposit route (`POST /api/wallet/deposit`) -/

/-- A row of the `deposits` table. -/
structure DepositRow where
  agent_id : String
  tx_hash : String
  amount : ℚ
  from_address : String
  verified : Bool
  block_number : Option Nat
deriving DecidableEq

/-- The store state the deposit route touches: the `deposits` table
(unique on `tx_hash`) and the requesting agent's `balance_usdc` row. -/
structure WalletState where
  deposits : List DepositRow
  balance : ℚ
deriving DecidableEq

/-- The deposit request body.  `tx_hash = none` models an absent or
non-string field; `amount` is the caller-supplied body amount used only by
the test-mode shortcut. -/
structure DepositBody where
  tx_hash : Option String
  test_mode : Bool
  amount : Option ℚ
deriving DecidableEq

/-- The environment of one deposit request: the treasury configuration
(`CLAWDBAR_TREASURY_ADDRESS`), whether `NODE_ENV === 'development'`, the
chain RPC, and fault switches for the two store writes (`insertFails` is a
non-uniqueness insert error, `updateFails` an error on the balance
update). -/
structure DepositEnv where
  treasuryEnv : Option String
  nodeEnvDevelopment : Bool
  chain : String → Option TransactionReceipt
  insertFails : Bool
  updateFails : Bool

/-- The distinct observable outcomes of the deposit route. -/
inductive DepositOutcome where
  | unauthorized
  | rateLimited
  | txHashRequired
  | alreadyClaimed
  | notConfigured
  | testCredited (amount : ℚ)
  | verificationFailed (error : String)
  | failedToProcess
  | balanceUpdateFailed
  | credited (amount : ℚ)
deriving DecidableEq

/-- Whether a `tx_hash` is already present in the `deposits` table. -/
def hasDeposit (st : WalletState) (txLower : String) : Bool :=
  st.deposits.any (fun r => r.tx_hash == txLower)

/-- The `POST` handler of `/api/wallet/deposit`.  Authentication and the
rate-limit decision (earlier middleware in the handler) are passed as
inputs; the function returns the outcome, the new store state and whether
a chain RPC call was made.  The insert in the test-mode branch ignores
store errors (the code does not destructure `error` there), so on an
insert failure it still credits the balance; the chain-verified path
checks the insert error and maps the uniqueness violation (code `23505`)
to "already claimed". -/
def depositPOST (env : DepositEnv) (agent : Option String)
    (rateAllowed : Bool) (body : DepositBody) (st : WalletState) :
    DepositOutcome × WalletState × Bool :=
  match agent with
  | none => (.unauthorized, st, false)
  | some agentId =>
    if ¬ rateAllowed then (.rateLimited, st, false)
    else
      match body.tx_hash with
      | none => (.txHashRequired, st, false)
      | some txh =>
        if txh = "" then (.txHashRequired, st, false)
        else if hasDeposit st (toLowerStr txh) then (.alreadyClaimed, st, false)
        else
          match env.treasuryEnv with
          | none =>
            if env.nodeEnvDevelopment ∧ body.test_mode then
              let base : ℚ :=
                match body.amount with
                | none => 10
                | some a => if a = 0 then 10 else a
              let testAmount := min base 100
              let row : DepositRow :=
                ⟨agentId, toLowerStr txh, testAmount, "0x_test_address",
                  true, some 0⟩
              let deposits1 :=
                if hasDeposit st (toLowerStr txh) ∨ env.insertFails then
                  st.deposits
                else st.deposits ++ [row]
              let balance1 :=
                if env.updateFails then st.balance
                else st.balance + testAmount
              (.testCredited testAmount, ⟨deposits1, balance1⟩, false)
            else (.notConfigured, st, false)
          | some tEnv =>
            let vc := verifyUSDCTransfer txh (some tEnv) env.chain
            if ¬ vc.1.valid then
              (.verificationFailed (vc.1.error.getD "Transaction verification failed"),
               st, vc.2)
            else
              let amt := vc.1.amount.getD 0
              let row : DepositRow :=
                ⟨agentId, toLowerStr txh, amt, vc.1.fromAddr.getD "",
                  true, vc.1.blockNumber⟩
              if hasDeposit st (toLowerStr txh) then (.alreadyClaimed, st, vc.2)
              else if env.insertFails then (.failedToProcess, st, vc.2)
              else if env.updateFails then
                (.balanceUpdateFailed, ⟨st.deposits ++ [row], st.balance⟩, vc.2)
              else
                (.credited amt,
                 ⟨st.deposits ++ [row], st.balance + amt⟩, vc.2)

/-! ### Concrete fixtures used by the witness and counterexample theorems -/

/-- A concrete treasury address (40 hex digits), already lowercase. -/
def treasuryHex : String := "0xaaaaaaaaaaaaaaaaaaaaaaaaaaaaaaaaaaaaaaaa"

/-- The `topics[2]` encoding of `treasuryHex` (24 zero digits of padding). -/
def topicTreasury : String :=
  "0x000000000000000000000000aaaaaaaaaaaaaaaaaaaaaaaaaaaaaaaaaaaaaaaa"

/-- The `topics[1]` encoding of a sender address. -/
def topicSender : String :=
  "0x000000000000000000000000bbbbbbbbbbbbbbbbbbbbbbbbbbbbbbbbbbbbbbbb"

/-- A USDC transfer log of 1 USDC (raw data `0x0f4240` = 1000000) to the
treasury. -/
def goodLog : LogEntry :=
  ⟨USDC_CONTRACT, [TRANSFER_EVENT_SIGNATURE, topicSender, topicTreasury],
   "0x0f4240"⟩

/-- A successful receipt containing `goodLog`. -/
def goodReceipt : TransactionReceipt := ⟨"0x1", "0x10", [goodLog]⟩

/-- A well-formed transaction hash. -/
def txA : String :=
  "0x1111111111111111111111111111111111111111111111111111111111111111"

/-- A chain holding exactly the receipt for `txA`. -/
def chainA (h : String) : Option TransactionReceipt :=
  if h = txA then some goodReceipt else none

/-- A healthy production environment around `chainA`. -/
def envA : DepositEnv := ⟨some treasuryHex, false, chainA, false, false⟩

/-- The store state after the deposit of `txA` has been credited. -/
def stAfterA : WalletState :=
  ⟨[⟨"agent1", txA, 1,
     "0xbbbbbbbbbbbbbbbbbbbbbbbbbbbbbbbbbbbbbbbb", true, some 16⟩], 6⟩

/-- A deposit transaction hash whose hex digits are lowercase letters. -/
def txB : String :=
  "0xaaaaaaaaaaaaaaaaaaaaaaaaaaaaaaaaaaaaaaaaaaaaaaaaaaaaaaaaaaaaaaaa"

/-- The same transaction hash as `txB` with uppercase hex letters. -/
def txBUpper : String :=
  "0xAAAAAAAAAAAAAAAAAAAAAAAAAAAAAAAAAAAAAAAAAAAAAAAAAAAAAAAAAAAAAAAA"

/-- A chain holding exactly the receipt for `txB`. -/
def chainB (h : String) : Option TransactionReceipt :=
  if h = txB then some goodReceipt else none

/-- A healthy production environment around `chainB`. -/
def envB : DepositEnv := ⟨some treasuryHex, false, chainB, false, false⟩

/-- The store state after the deposit of `txB` has been credited. -/
def stAfterB : WalletState :=
  ⟨[⟨"agent1", txB, 1,
     "0xbbbbbbbbbbbbbbbbbbbbbbbbbbbbbbbbbbbbbbbb", true, some 16⟩], 6⟩

/-- A store state holding a malformed reference recorded by a test-mode
deposit. -/
def stMal : WalletState :=
  ⟨[⟨"agent1", "notahash", 10, "0x_test_address", true, some 0⟩], 10⟩

/-- The `topics[2]` encoding of an address that is not the treasury. -/
def topicOther : String :=
  "0x000000000000000000000000cccccccccccccccccccccccccccccccccccccccc"

/-- A USDC transfer log with the correct contract and event signature whose
destination is not the treasury. -/
def wrongDestLog : LogEntry :=
  ⟨USDC_CONTRACT, [TRANSFER_EVENT_SIGNATURE, topicSender, topicOther],
   "0x0f4240"⟩

/-- A successful receipt whose only transfer goes to the wrong address. -/
def wrongDestReceipt : TransactionReceipt := ⟨"0x1", "0x10", [wrongDestLog]⟩

/-- A chain holding exactly `wrongDestReceipt` for `txA`. -/
def chainC (h : String) : Option TransactionReceipt :=
  if h = txA then some wrongDestReceipt else none

/-- A healthy production environment around `chainC`. -/
def envC : DepositEnv := ⟨some treasuryHex, false, chainC, false, false⟩

/-- The environment `envA` with a failing balance-update write. -/
def envABroken : DepositEnv := ⟨some treasuryHex, false, chainA, false, true⟩

/-- A concrete issued API key: fixed prefix plus 28 payload characters. -/
def apiKeyT : String := generateApiKey "ABCDEFGHIJKLMNOPQRSTUVWXYZab"

/-- The stored `agents` row produced by issuing `apiKeyT` with bcrypt
salt 7. -/
def storedAgentT : StoredAgent := ⟨"id1", ⟨7, apiKeyT⟩, getKeyPrefix apiKeyT⟩

/-- A different issued key sharing the first 8 payload characters with
`apiKeyT` (same 16-character lookup prefix, different tail). -/
def otherKeyT : String := generateApiKey "ABCDEFGHIJKLMNOPQRSTUVWXYZzz"

/-! ## Helper lemmas -/

/-- A reference whose lowercased form is already recorded is rejected as
already claimed by the read-time lookup, with the store untouched and no
chain call. -/
theorem depositPOST_dup_rejected (env : DepositEnv) (agentId : String)
    (body : DepositBody) (txh : String) (st : WalletState)
    (hb : body.tx_hash = some txh) (hne : txh ≠ "")
    (hdup : hasDeposit st (toLowerStr txh) = true) :
    depositPOST env (some agentId) true body st =
      (.alreadyClaimed, st, false) := by
  unfold depositPOST
  rw [hb]
  simp [hne, hdup]

/-- Inversion of a `credited` outcome: it only arises for an authenticated,
admitted request with a nonempty, not-yet-recorded reference, in a
configured environment whose chain verification succeeded, with both store
writes healthy; the credited amount is the verifier's parsed amount, the
row appended records the lowercased reference, and the balance is
incremented by exactly that amount. -/
theorem depositPOST_credited_inv (env : DepositEnv) (ag : Option String)
    (rl : Bool) (body : DepositBody) (st st' : WalletState) (amt : ℚ)
    (c : Bool)
    (h : depositPOST env ag rl body st = (.credited amt, st', c)) :
    ∃ agentId txh t, ag = some agentId ∧ rl = true ∧
      body.tx_hash = some txh ∧ txh ≠ "" ∧
      hasDeposit st (toLowerStr txh) = false ∧
      env.treasuryEnv = some t ∧
      (verifyUSDCTransfer txh (some t) env.chain).1.valid = true ∧
      amt = (verifyUSDCTransfer txh (some t) env.chain).1.amount.getD 0 ∧
      st'.deposits = st.deposits ++
        [⟨agentId, toLowerStr txh, amt,
          (verifyUSDCTransfer txh (some t) env.chain).1.fromAddr.getD "",
          true, (verifyUSDCTransfer txh (some t) env.chain).1.blockNumber⟩] ∧
      st'.balance = st.balance + amt := by
  cases ag with
  | none => simp [depositPOST] at h
  | some agentId =>
    cases rl with
    | false => simp [depositPOST] at h
    | true =>
      unfold depositPOST at h
      cases hb : body.tx_hash with
      | none => rw [hb] at h; simp at h
      | some txh =>
        rw [hb] at h
        by_cases h0 : txh = ""
        · simp [h0] at h
        simp only [h0, reduceIte, if_false] at h
        by_cases h1 : hasDeposit st (toLowerStr txh) = true
        · simp [h1] at h
        simp only [h1, Bool.false_eq_true, if_false, reduceIte] at h
        cases henv : env.treasuryEnv with
        | none =>
          rw [henv] at h
          by_cases hdev : env.nodeEnvDevelopment ∧ body.test_mode <;>
            simp [hdev] at h
        | some tEnv =>
          rw [henv] at h
          by_cases hv :
            (verifyUSDCTransfer txh (some tEnv) env.chain).1.valid = true
          case neg => simp [hv] at h
          simp only [hv, not_true, reduceIte, h1, Bool.false_eq_true,
            if_false] at h
          by_cases hins : env.insertFails = true
          · simp [hins] at h
          simp only [hins, Bool.false_eq_true, reduceIte, if_false] at h
          by_cases hupd : env.updateFails = true
          · simp [hupd] at h
          simp only [hupd, Bool.false_eq_true, reduceIte, if_false,
            Prod.mk.injEq, DepositOutcome.credited.injEq] at h
          obtain ⟨hamt, hst, -⟩ := h
          refine ⟨agentId, txh, tEnv, rfl, rfl, rfl, h0, by simpa using h1,
            rfl, hv, hamt.symm, ?_, ?_⟩
          · rw [← hst, hamt]
          · rw [← hst, hamt]

/-- A `credited` outcome implies the submitted reference was nonempty and
its lowercased form is recorded in the resulting store state. -/
theorem depositPOST_credited_records (env : DepositEnv) (agentId : String)
    (body : DepositBody) (txh : String) (st st' : WalletState) (amt : ℚ)
    (c : Bool) (hb : body.tx_hash = some txh)
    (h : depositPOST env (some agentId) true body st =
      (.credited amt, st', c)) :
    txh ≠ "" ∧ hasDeposit st' (toLowerStr txh) = true := by
  obtain ⟨agentId', txh', t, -, -, hb', hne, -, -, -, -, hdep, -⟩ :=
    depositPOST_credited_inv env (some agentId) true body st st' amt c h
  rw [hb] at hb'
  obtain rfl : txh' = txh := by injection hb' with h'; exact h'.symm
  refine ⟨hne, ?_⟩
  rw [hasDeposit, hdep]
  simp

/-- Inversion of a valid verification: there is a receipt, a matching
transfer log found by the scan, and the reported amount is exactly the
amount parsed from that log's data field. -/
theorem verifyUSDCTransfer_valid_amount (txh t : String)
    (chain : String → Option TransactionReceipt) (res : VerificationResult)
    (calledFlag : Bool)
    (heq : verifyUSDCTransfer txh (some t) chain = (res, calledFlag))
    (hv : res.valid = true) :
    ∃ receipt log amount,
      chain txh = some receipt ∧
      findTransferLog (toLowerStr t) receipt.logs = .found log ∧
      parseUSDCAmount log.data = some amount ∧
      res.amount = some amount := by
  unfold verifyUSDCTransfer at heq
  split at heq
  · injection heq with h1 h2; subst h1; simp [vErr] at hv
  split at heq
  next x heq2 => simp at heq2
  next x t2 heq2 =>
  injection heq2 with ht2
  subst ht2
  split at heq
  next x heqc => injection heq with h1 h2; subst h1; simp [vErr] at hv
  next x receipt heqc =>
  split at heq
  · injection heq with h1 h2; subst h1; simp [vErr] at hv
  split at heq
  next x heqs => injection heq with h1 h2; subst h1; simp [vErr] at hv
  next x heqs => injection heq with h1 h2; subst h1; simp [vErr] at hv
  next x log heqs =>
  split at heq
  next x heqp => injection heq with h1 h2; subst h1; simp [vErr] at hv
  next x amount heqp =>
  split at heq
  · injection heq with h1 h2; subst h1; simp [vErr] at hv
  split at heq
  · injection heq with h1 h2; subst h1; simp [vErr] at hv
  injection heq with h1 h2
  subst h1
  exact ⟨receipt, log, amount, heqc, heqs, heqp, rfl⟩

/-- When every log in the receipt is either not from the USDC contract,
not a Transfer event, or a Transfer whose destination topic parses to an
address other than the treasury, the scan finds no matching transfer. -/
theorem findTransferLog_notFound (treasury : String) (logs : List LogEntry)
    (h : ∀ log ∈ logs,
      toLowerStr log.address ≠ toLowerStr USDC_CONTRACT ∨
      log.topics.get? 0 ≠ some TRANSFER_EVENT_SIGNATURE ∨
      (∃ t2, log.topics.get? 2 = some t2 ∧ parseAddress t2 ≠ treasury)) :
    findTransferLog treasury logs = .notFound := by
  induction logs with
  | nil => rfl
  | cons log rest ih =>
    have hl := h log (by simp)
    have hrest := ih (fun l hl' => h l (by simp [hl']))
    unfold findTransferLog
    by_cases ha : toLowerStr log.address ≠ toLowerStr USDC_CONTRACT
    · rw [if_pos ha]; exact hrest
    rw [if_neg ha]
    by_cases hs : log.topics.get? 0 ≠ some TRANSFER_EVENT_SIGNATURE
    · rw [if_pos hs]; exact hrest
    rw [if_neg hs]
    rcases hl with h1 | h2 | ⟨t2, ht2, hne⟩
    · exact absurd h1 ha
    · exact absurd h2 hs
    · rw [ht2]
      simp [hne, hrest]

/-- With fuel above the pattern length, a `%`-free pattern LIKE-matches
itself: literal characters match themselves and `_` matches any single
character, in particular itself. -/
theorem likeMatchAux_self (fuel : Nat) : ∀ l : List Char,
    l.length < fuel → '%' ∉ l → likeMatchAux fuel l l = true := by
  induction fuel with
  | zero => intro l hlen _; simp at hlen
  | succ n ih =>
    intro l hlen hpct
    cases l with
    | nil => rfl
    | cons c cs =>
      have hc : c ≠ '%' := by
        intro e
        exact hpct (by simp [e])
      have hrest : '%' ∉ cs := fun hm => hpct (List.mem_cons_of_mem _ hm)
      simp only [likeMatchAux]
      rw [if_neg hc]
      have : likeMatchAux n cs cs = true := by
        refine ih cs ?_ hrest
        simp at hlen
        omega
      simp [this]

/-- A `%`-free pattern LIKE-matches itself. -/
theorem likeMatch_self (l : List Char) (h : '%' ∉ l) : likeMatch l l = true := by
  refine likeMatchAux_self _ l ?_ h
  omega

/-! ## Claim theorems -/

/-- C2: Outside the explicitly gated test mode — in particular whenever the
treasury environment variable is configured, which makes the test-mode
branch unreachable — the caller-supplied body amount never influences the
handler's outcome or store state, and the amount of a `credited` outcome
is exactly the amount parsed from the data field of the matching transfer
log of the on-chain receipt. -/
theorem deposit_amount_from_chain_only (env : DepositEnv) (t : String)
    (ag : Option String) (rl : Bool) (tx : Option String) (tm : Bool)
    (a1 a2 : Option ℚ) (st st' : WalletState) (amt : ℚ) (c : Bool)
    (ht : env.treasuryEnv = some t) :
    depositPOST env ag rl ⟨tx, tm, a1⟩ st =
      depositPOST env ag rl ⟨tx, tm, a2⟩ st ∧
    (depositPOST env ag rl ⟨tx, tm, a1⟩ st = (.credited amt, st', c) →
      ∃ txh receipt log,
        tx = some txh ∧ env.chain txh = some receipt ∧
        findTransferLog (toLowerStr t) receipt.logs = .found log ∧
        parseUSDCAmount log.data = some amt) := by
  constructor
  · unfold depositPOST
    rw [ht]
  · intro h
    obtain ⟨agentId, txh, t', -, -, hb, -, -, henv, hv, hamt, -, -⟩ :=
      depositPOST_credited_inv env ag rl ⟨tx, tm, a1⟩ st st' amt c h
    rw [ht] at henv
    obtain rfl : t = t' := by simpa using henv
    obtain ⟨receipt, log, amount, hc, hscan, hparse, hAmtEq⟩ :=
      verifyUSDCTransfer_valid_amount txh t env.chain
        (verifyUSDCTransfer txh (some t) env.chain).1
        (verifyUSDCTransfer txh (some t) env.chain).2 rfl hv
    obtain rfl : amt = amount := by rw [hamt, hAmtEq]; rfl
    exact ⟨txh, receipt, log, hb, hc, hscan, hparse⟩

/-- Witness for C2 on the concrete fixture: a body amount of 999 and an
absent body amount produce identical results, and a credited run's amount
comes from the transfer log. -/
theorem deposit_amount_from_chain_only_witness :
    (depositPOST envA (some "agent1") true ⟨some txA, false, some 999⟩
        ⟨[], 5⟩ =
      depositPOST envA (some "agent1") true ⟨some txA, false, none⟩
        ⟨[], 5⟩) ∧
    (depositPOST envA (some "agent1") true ⟨some txA, false, some 999⟩
        ⟨[], 5⟩ = (.credited 1, stAfterA, true) →
      ∃ txh receipt log,
        some txA = some txh ∧ envA.chain txh = some receipt ∧
        findTransferLog (toLowerStr treasuryHex) receipt.logs = .found log ∧
        parseUSDCAmount log.data = some 1) :=
  deposit_amount_from_chain_only envA treasuryHex (some "agent1") true
    (some txA) false (some 999) none ⟨[], 5⟩ stAfterA 1 true rfl

/-- C3: Submitting the same valid transaction reference twice sequentially
credits the balance exactly once: when the first submission ended in
`credited`, resubmitting the identical request against the resulting store
state is rejected as already claimed by the read-time lookup, the store
state (balance included) is returned unchanged, and no chain call is
made. -/
theorem deposit_sequential_exactly_once (env : DepositEnv)
    (agentId : String) (body : DepositBody) (txh : String)
    (st st1 : WalletState) (amt : ℚ) (c : Bool)
    (hb : body.tx_hash = some txh)
    (h1 : depositPOST env (some agentId) true body st =
      (.credited amt, st1, c)) :
    depositPOST env (some agentId) true body st1 =
      (.alreadyClaimed, st1, false) := by
  obtain ⟨hne, hdup⟩ :=
    depositPOST_credited_records env agentId body txh st st1 amt c hb h1
  exact depositPOST_dup_rejected env agentId body txh st1 hb hne hdup

/-- Witness for C3 on the concrete fixture: crediting `txA` into the empty
store, then resubmitting it. -/
theorem deposit_sequential_exactly_once_witness :
    depositPOST envA (some "agent1") true ⟨some txA, false, none⟩ stAfterA =
      (.alreadyClaimed, stAfterA, false) :=
  deposit_sequential_exactly_once envA "agent1" ⟨some txA, false, none⟩ txA
    ⟨[], 5⟩ stAfterA 1 true rfl (by with_unfolding_all decide)

/-- C10: Deposit duplicate detection is case-insensitive: a credited
reference is recorded lowercased and looked up lowercased, so after a
submission of `txh` ended in `credited`, a second submission whose
reference `txh2` differs only in letter casing (same lowercasing) is
rejected as already claimed, with the store state unchanged and no chain
call. -/
theorem deposit_dup_check_case_insensitive (env : DepositEnv)
    (agentId : String) (body body2 : DepositBody) (txh txh2 : String)
    (st st1 : WalletState) (amt : ℚ) (c : Bool)
    (hb : body.tx_hash = some txh) (hb2 : body2.tx_hash = some txh2)
    (hne2 : txh2 ≠ "") (hcase : toLowerStr txh2 = toLowerStr txh)
    (h1 : depositPOST env (some agentId) true body st =
      (.credited amt, st1, c)) :
    depositPOST env (some agentId) true body2 st1 =
      (.alreadyClaimed, st1, false) := by
  obtain ⟨-, hdup⟩ :=
    depositPOST_credited_records env agentId body txh st st1 amt c hb h1
  refine depositPOST_dup_rejected env agentId body2 txh2 st1 hb2 hne2 ?_
  rw [hcase]
  exact hdup

/-- Witness for C10 on the concrete fixture: crediting `txB`, then
resubmitting it with uppercase hex letters. -/
theorem deposit_dup_check_case_insensitive_witness :
    depositPOST envB (some "agent1") true ⟨some txBUpper, false, none⟩
        stAfterB =
      (.alreadyClaimed, stAfterB, false) :=
  deposit_dup_check_case_insensitive envB "agent1"
    ⟨some txB, false, none⟩ ⟨some txBUpper, false, none⟩ txB txBUpper
    ⟨[], 5⟩ stAfterB 1 true rfl rfl (by decide) (by decide)
    (by with_unfolding_all decide)

/-- C9: A deposit whose receipt contains transfer events from the expected
token contract with the correct event signature, but whose destination
topic never parses to the configured treasury address, is rejected with
the no-matching-transfer outcome, with the store state unchanged (nothing
credited), regardless of the amounts or senders in those logs. -/
theorem deposit_wrong_destination_rejected (env : DepositEnv)
    (agentId : String) (body : DepositBody) (txh t : String)
    (st : WalletState) (receipt : TransactionReceipt)
    (hb : body.tx_hash = some txh) (hne : txh ≠ "")
    (hdup : hasDeposit st (toLowerStr txh) = false)
    (ht : env.treasuryEnv = some t)
    (hfmt : txHashFormatValid txh = true)
    (hc : env.chain txh = some receipt)
    (hs : receipt.status = "0x1")
    (hlogs : ∀ log ∈ receipt.logs,
      toLowerStr log.address ≠ toLowerStr USDC_CONTRACT ∨
      log.topics.get? 0 ≠ some TRANSFER_EVENT_SIGNATURE ∨
      (∃ t2, log.topics.get? 2 = some t2 ∧ parseAddress t2 ≠ toLowerStr t)) :
    depositPOST env (some agentId) true body st =
      (.verificationFailed
        "No USDC transfer to treasury address found in transaction",
       st, true) := by
  have hscan := findTransferLog_notFound (toLowerStr t) receipt.logs hlogs
  have hverify : verifyUSDCTransfer txh (some t) env.chain =
      (vErr "No USDC transfer to treasury address found in transaction",
       true) := by
    unfold verifyUSDCTransfer
    rw [if_neg (by simp [hfmt])]
    simp only [hc, hs, ne_eq, not_true_eq_false, reduceIte, hscan]
  unfold depositPOST
  rw [hb, ht]
  simp [hne, hdup, hverify, vErr]

/-- Witness for C9 on the concrete fixture: a receipt whose only USDC
transfer goes to an address other than the treasury. -/
theorem deposit_wrong_destination_rejected_witness :
    depositPOST envC (some "agent1") true ⟨some txA, false, none⟩ ⟨[], 5⟩ =
      (.verificationFailed
        "No USDC transfer to treasury address found in transaction",
       ⟨[], 5⟩, true) :=
  deposit_wrong_destination_rejected envC "agent1" ⟨some txA, false, none⟩
    txA treasuryHex ⟨[], 5⟩ wrongDestReceipt rfl (by decide) (by decide) rfl
    (by decide) rfl rfl
    (by
      intro log hl
      simp only [wrongDestReceipt, List.mem_singleton] at hl
      subst hl
      exact Or.inr (Or.inr ⟨topicOther, rfl, by decide⟩))

/-- C6 counterexample: the gates do not run format-check-first.  With a
malformed reference that an earlier test-mode deposit recorded, the
handler answers "already claimed" — the duplicate check fired before the
format check — instead of the malformed-reference rejection the claimed
gate order would produce.  No chain call is made either way. -/
theorem deposit_gate_order_counterexample :
    depositPOST envA (some "agent1") true ⟨some "notahash", false, none⟩
        stMal =
      (.alreadyClaimed, stMal, false) ∧
    txHashFormatValid "notahash" = false ∧
    DepositOutcome.alreadyClaimed ≠
      DepositOutcome.verificationFailed "Invalid transaction hash format" := by
  refine ⟨by with_unfolding_all decide, by decide, by decide⟩

/-- C6 amended: the duplicate check runs before the format check; for a
malformed reference that is not already recorded, the handler rejects with
the malformed-reference outcome, leaves the store unchanged, and makes no
chain call. -/
theorem deposit_malformed_no_chain_call (env : DepositEnv)
    (agentId : String) (body : DepositBody) (txh t : String)
    (st : WalletState)
    (hb : body.tx_hash = some txh) (hne : txh ≠ "")
    (hdup : hasDeposit st (toLowerStr txh) = false)
    (ht : env.treasuryEnv = some t)
    (hfmt : txHashFormatValid txh = false) :
    depositPOST env (some agentId) true body st =
      (.verificationFailed "Invalid transaction hash format", st, false) := by
  have hverify : verifyUSDCTransfer txh (some t) env.chain =
      (vErr "Invalid transaction hash format", false) := by
    unfold verifyUSDCTransfer
    rw [if_pos (by simp [hfmt])]
  unfold depositPOST
  rw [hb, ht]
  simp [hne, hdup, hverify, vErr]

/-- Witness for the amended C6 on a concrete malformed, unrecorded
reference. -/
theorem deposit_malformed_no_chain_call_witness :
    depositPOST envA (some "agent1") true ⟨some "nothex", false, none⟩
        ⟨[], 5⟩ =
      (.verificationFailed "Invalid transaction hash format", ⟨[], 5⟩,
       false) :=
  deposit_malformed_no_chain_call envA "agent1" ⟨some "nothex", false, none⟩
    "nothex" treasuryHex ⟨[], 5⟩ rfl (by decide) (by decide) rfl (by decide)

/-- C1 counterexample: the deposit row insertion and the balance update
are two separate store writes, not one atomic unit.  When the balance
update fails after a successful insertion, the handler returns the
balance-update-failed outcome and the resulting state holds the recorded
deposit row while the balance is unchanged — a partial credit. -/
theorem deposit_atomicity_counterexample :
    depositPOST envABroken (some "agent1") true ⟨some txA, false, none⟩
        ⟨[], 5⟩ =
      (.balanceUpdateFailed,
       ⟨[⟨"agent1", txA, 1,
          "0xbbbbbbbbbbbbbbbbbbbbbbbbbbbbbbbbbbbbbbbb", true, some 16⟩],
        5⟩,
       true) := by
  with_unfolding_all decide

/-- C1 amended: when both store writes succeed (no insert fault beyond the
uniqueness rejection and no update fault), crediting is all-or-nothing:
either the outcome is a crediting outcome, exactly one row is appended and
the balance is incremented by exactly that row's amount, or the outcome is
a rejection and the store state is returned unchanged. -/
theorem deposit_credit_both_or_neither (env : DepositEnv)
    (ag : Option String) (rl : Bool) (body : DepositBody)
    (st st' : WalletState) (out : DepositOutcome) (c : Bool)
    (hins : env.insertFails = false) (hupd : env.updateFails = false)
    (h : depositPOST env ag rl body st = (out, st', c)) :
    (∃ amt row, (out = .credited amt ∨ out = .testCredited amt) ∧
      st'.deposits = st.deposits ++ [row] ∧ row.amount = amt ∧
      st'.balance = st.balance + amt) ∨
    (st' = st ∧ ∀ amt, out ≠ .credited amt ∧ out ≠ .testCredited amt) := by
  cases ag with
  | none =>
    simp only [depositPOST, Prod.mk.injEq] at h
    obtain ⟨rfl, rfl, rfl⟩ := h
    exact Or.inr ⟨rfl, fun amt => ⟨by simp, by simp⟩⟩
  | some agentId =>
    cases rl with
    | false =>
      simp only [depositPOST, Bool.false_eq_true, not_false_eq_true,
        if_true, Prod.mk.injEq] at h
      obtain ⟨rfl, rfl, rfl⟩ := h
      exact Or.inr ⟨rfl, fun amt => ⟨by simp, by simp⟩⟩
    | true =>
      unfold depositPOST at h
      cases hb : body.tx_hash with
      | none =>
        rw [hb] at h
        simp only [Prod.mk.injEq] at h
        obtain ⟨rfl, rfl, rfl⟩ := h
        exact Or.inr ⟨rfl, fun amt => ⟨by simp, by simp⟩⟩
      | some txh =>
        rw [hb] at h
        by_cases h0 : txh = ""
        · simp only [h0, reduceIte, Prod.mk.injEq] at h
          obtain ⟨rfl, rfl, rfl⟩ := h
          exact Or.inr ⟨rfl, fun amt => ⟨by simp, by simp⟩⟩
        simp only [h0, reduceIte, if_false] at h
        by_cases h1 : hasDeposit st (toLowerStr txh) = true
        · simp only [h1, if_true, reduceIte, Prod.mk.injEq] at h
          obtain ⟨rfl, rfl, rfl⟩ := h
          exact Or.inr ⟨rfl, fun amt => ⟨by simp, by simp⟩⟩
        simp only [h1, Bool.false_eq_true, if_false, reduceIte] at h
        cases henv : env.treasuryEnv with
        | none =>
          rw [henv] at h
          by_cases hdev : env.nodeEnvDevelopment ∧ body.test_mode
          · simp only [hdev, if_true, reduceIte, h1, hins,
              Bool.false_eq_true, false_or, or_self, if_false,
              hupd, Prod.mk.injEq] at h
            obtain ⟨rfl, rfl, rfl⟩ := h
            refine Or.inl ?_
            refine ⟨_, _, Or.inr rfl, rfl, rfl, rfl⟩
          · simp only [hdev, if_false, reduceIte, Prod.mk.injEq] at h
            obtain ⟨rfl, rfl, rfl⟩ := h
            exact Or.inr ⟨rfl, fun amt => ⟨by simp, by simp⟩⟩
        | some tEnv =>
          rw [henv] at h
          by_cases hv :
            (verifyUSDCTransfer txh (some tEnv) env.chain).1.valid = true
          case neg =>
            simp only [hv, Bool.false_eq_true, not_false_eq_true, if_true,
              reduceIte, Prod.mk.injEq] at h
            obtain ⟨rfl, rfl, rfl⟩ := h
            exact Or.inr ⟨rfl, fun amt => ⟨by simp, by simp⟩⟩
          simp only [hv, not_true, reduceIte, h1, Bool.false_eq_true,
            if_false, hins, hupd, Prod.mk.injEq] at h
          obtain ⟨rfl, rfl, rfl⟩ := h
          refine Or.inl ?_
          refine ⟨_, _, Or.inl rfl, rfl, rfl, rfl⟩

/-- Witness for the amended C1 on the concrete fixture: a healthy run
credits and appends the row; the theorem's disjunction holds for it. -/
theorem deposit_credit_both_or_neither_witness :
    (∃ amt row,
      ((DepositOutcome.credited 1) = .credited amt ∨
        (DepositOutcome.credited 1) = .testCredited amt) ∧
      stAfterA.deposits = (⟨[], 5⟩ : WalletState).deposits ++ [row] ∧
      row.amount = amt ∧
      stAfterA.balance = (⟨[], 5⟩ : WalletState).balance + amt) ∨
    (stAfterA = (⟨[], 5⟩ : WalletState) ∧
      ∀ amt, (DepositOutcome.credited 1) ≠ .credited amt ∧
        (DepositOutcome.credited 1) ≠ .testCredited amt) :=
  deposit_credit_both_or_neither envA (some "agent1") true
    ⟨some txA, false, none⟩ ⟨[], 5⟩ stAfterA (.credited 1) true rfl rfl
    (by with_unfolding_all decide)

/-- C4 counterexample: the legacy registration route present in the
repository persists the cleartext credential: the record handed to the
store carries the plaintext key in its `api_key` column. -/
theorem register_legacy_cleartext_counterexample :
    (registerPOSTLegacy apiKeyT "zoe").1.api_key = some apiKeyT ∧
    (registerPOSTLegacy apiKeyT "zoe").1.api_key ≠ none := by
  decide

/-- C4 amended: the hash-based registration route persists only the
one-way hash and the non-secret 16-character lookup prefix — its insert
record leaves the cleartext `api_key` column unset — and returns the
plaintext token to the caller in its response (the single issuance
response). -/
theorem register_persists_only_hash_and_prefix (salt : Nat)
    (apiKey name : String) :
    (registerPOST salt apiKey name).1.api_key = none ∧
    (registerPOST salt apiKey name).1.api_key_hash =
      some (hashApiKey salt apiKey) ∧
    AgentsInsertRecord.api_key_prefix (registerPOST salt apiKey name).1 =
      some (getKeyPrefix apiKey) ∧
    (registerPOST salt apiKey name).2 = apiKey :=
  ⟨rfl, rfl, rfl, rfl⟩

/-- C5 counterexample: a record-store error during validation produces the
very same `none` (unauthorized) outcome as a presented credential that
matches no stored verifier — not a distinct infrastructure error. -/
theorem validate_store_error_counterexample :
    validateApiKey (some otherKeyT) (Except.error ()) = none ∧
    validateApiKey (some otherKeyT) (Except.ok [storedAgentT]) = none ∧
    validateApiKey (some otherKeyT) (Except.error ()) =
      validateApiKey (some otherKeyT) (Except.ok [storedAgentT]) := by
  decide

/-- C5 amended: when the record store query errors during validation, the
handler returns the same `none` outcome it returns for a non-matching
credential; store errors are collapsed into the unauthorized result
instead of being propagated distinctly. -/
theorem validate_store_error_same_as_invalid (k : String)
    (table : List StoredAgent) (hk : k ≠ "")
    (hnm : ∀ a ∈ table, bcryptCompare k a.api_key_hash = false) :
    validateApiKey (some k) (Except.error ()) = none ∧
    validateApiKey (some k) (Except.ok table) =
      validateApiKey (some k) (Except.error ()) := by
  have he : validateApiKey (some k) (Except.error ()) = none := by
    simp only [validateApiKey]
    rw [if_neg hk]
  refine ⟨he, ?_⟩
  rw [he]
  simp only [validateApiKey]
  rw [if_neg hk]
  by_cases hemp :
    (table.filter (fun a =>
      likeMatch (getKeyPrefix k).data a.api_key_prefix.data)).isEmpty = true
  · rw [if_pos hemp]
  · rw [if_neg hemp]
    refine List.find?_eq_none.mpr ?_
    intro a ha
    simp [hnm a (List.mem_of_mem_filter ha)]

/-- Witness for the amended C5 on the concrete fixture: a prefix-matching
but non-matching key against the one-agent table versus a store error. -/
theorem validate_store_error_same_as_invalid_witness :
    validateApiKey (some otherKeyT) (Except.error ()) = none ∧
    validateApiKey (some otherKeyT) (Except.ok [storedAgentT]) =
      validateApiKey (some otherKeyT) (Except.error ()) :=
  validate_store_error_same_as_invalid otherKeyT [storedAgentT] (by decide)
    (by decide)

/-- C7: Round trip of issuance and validation.  For a stored principal
whose verifier is the bcrypt hash of the issued token and whose stored
prefix is the token's 16-character lookup prefix (as registration writes
them), and whose token no other stored principal's verifier matches,
validating that exact token returns that principal — not no-match and not
a different principal. -/
theorem validate_issue_roundtrip (table : List StoredAgent)
    (a : StoredAgent) (salt : Nat) (k : String)
    (hmem : a ∈ table)
    (hhash : a.api_key_hash = hashApiKey salt k)
    (hpre : a.api_key_prefix = getKeyPrefix k)
    (hk : k ≠ "")
    (hpct : '%' ∉ (getKeyPrefix k).data)
    (huniq : ∀ b ∈ table, bcryptCompare k b.api_key_hash = true → b = a) :
    validateApiKey (some k) (Except.ok table) = some a := by
  have hmatch : bcryptCompare k a.api_key_hash = true := by
    rw [hhash]
    simp [bcryptCompare, hashApiKey]
  have hlike : likeMatch (getKeyPrefix k).data a.api_key_prefix.data = true := by
    rw [hpre]
    exact likeMatch_self _ hpct
  have hmemf : a ∈ table.filter (fun b =>
      likeMatch (getKeyPrefix k).data b.api_key_prefix.data) :=
    List.mem_filter.mpr ⟨hmem, hlike⟩
  simp only [validateApiKey]
  rw [if_neg hk]
  have hne : ¬ ((table.filter (fun b =>
      likeMatch (getKeyPrefix k).data b.api_key_prefix.data)).isEmpty
        = true) := by
    intro he
    rw [List.isEmpty_iff] at he
    rw [he] at hmemf
    simp at hmemf
  rw [if_neg hne]
  cases hf : (table.filter (fun b =>
      likeMatch (getKeyPrefix k).data b.api_key_prefix.data)).find?
        (fun b => bcryptCompare k b.api_key_hash) with
  | none =>
    exact absurd hmatch (List.find?_eq_none.mp hf a hmemf)
  | some b =>
    have hb1 := List.find?_some hf
    have hb2 := List.mem_of_find?_eq_some hf
    rw [huniq b (List.mem_of_mem_filter hb2) hb1]

/-- Witness for C7 on the concrete fixture: validating the issued
`apiKeyT` against the table holding its principal recovers that
principal. -/
theorem validate_issue_roundtrip_witness :
    validateApiKey (some apiKeyT) (Except.ok [storedAgentT]) =
      some storedAgentT :=
  validate_issue_roundtrip [storedAgentT] storedAgentT 7 apiKeyT
    (by decide) rfl rfl (by decide) (by decide) (by decide)

/-- C8: A presented token whose prefix matches stored prefixes but whose
full token fails every hash comparison, and a presented token whose prefix
matches no stored prefix at all, both produce the same `none`
(unauthorized) outcome — e.g. a tampered token fails exactly like a
totally unrelated one. -/
theorem validate_tampered_vs_unrelated_same (table : List StoredAgent)
    (k k2 : String) (hk : k ≠ "") (hk2 : k2 ≠ "")
    (h1 : ∀ a ∈ table, bcryptCompare k a.api_key_hash = false)
    (h2 : ∀ a ∈ table,
      likeMatch (getKeyPrefix k2).data a.api_key_prefix.data = false) :
    validateApiKey (some k) (Except.ok table) = none ∧
    validateApiKey (some k2) (Except.ok table) = none ∧
    validateApiKey (some k) (Except.ok table) =
      validateApiKey (some k2) (Except.ok table) := by
  have e1 : validateApiKey (some k) (Except.ok table) = none := by
    simp only [validateApiKey]
    rw [if_neg hk]
    by_cases hemp :
      (table.filter (fun a =>
        likeMatch (getKeyPrefix k).data a.api_key_prefix.data)).isEmpty
          = true
    · rw [if_pos hemp]
    · rw [if_neg hemp]
      refine List.find?_eq_none.mpr ?_
      intro a ha
      simp [h1 a (List.mem_of_mem_filter ha)]
  have e2 : validateApiKey (some k2) (Except.ok table) = none := by
    simp only [validateApiKey]
    rw [if_neg hk2]
    have hfil : table.filter (fun a =>
        likeMatch (getKeyPrefix k2).data a.api_key_prefix.data) = [] :=
      List.filter_eq_nil_iff.mpr (fun a ha => by simp [h2 a ha])
    rw [hfil]
    rfl
  exact ⟨e1, e2, by rw [e1, e2]⟩

/-- Witness for C8 on the concrete fixture: the tampered `apiKeyT ++ "x"`
and the unrelated token fail identically. -/
theorem validate_tampered_vs_unrelated_same_witness :
    validateApiKey (some (apiKeyT ++ "x")) (Except.ok [storedAgentT]) =
        none ∧
    validateApiKey (some "totally-unrelated") (Except.ok [storedAgentT]) =
        none ∧
    validateApiKey (some (apiKeyT ++ "x")) (Except.ok [storedAgentT]) =
      validateApiKey (some "totally-unrelated") (Except.ok [storedAgentT]) :=
  validate_tampered_vs_unrelated_same [storedAgentT] (apiKeyT ++ "x")
    "totally-unrelated" (by decide) (by decide) (by decide) (by decide)

end ClawdBar
